import Mathlib

/-!
Verification of the experimenter repository's specification against a shallow
embedding of its code. Sources embedded here:
  app/experimenter/experiments/bugzilla.py
  app/experimenter/experiments/tests/factories.py
The view layer (app/experimenter/experiments/views.py) is exercised only by its
tests in the repository snapshot; the definitions standing in for it are marked
as modelled from the spec.
-/

namespace Experimenter

/-! ## JSON values and the wire-level model for bugzilla.py -/

/-- A JSON value, as produced by a successful json.loads call. A JSON object is
represented by its key-value pairs (Python dict keys are unique). -/
inductive Json where
  | null
  | bool (b : Bool)
  | num (n : Int)
  | str (s : String)
  | arr (elems : List Json)
  | obj (fields : List (String × Json))

/-- The fields of an experiment that create_experiment_bug reads. -/
structure BugzillaExperiment where
  name : String
  ownerEmail : String

/-- The Django settings that create_experiment_bug reads. -/
structure BugzillaSettings where
  createUrl : String
  ccList : String

/-- The environment's behaviour at the single outbound POST of
create_experiment_bug: requests.post raises RequestException, or json.loads of
the response content raises JSONDecodeError, or json.loads returns a value. -/
inductive WireOutcome where
  | requestException
  | jsonDecodeError
  | parsed (v : Json)

/-- Observable side effects of create_experiment_bug: the POST attempt itself
and logging.exception calls. -/
inductive Event where
  | httpPost (url : String) (data : List (String × String))
  | logException (msg : String)

/-- A Python exception escaping create_experiment_bug: dict.get on a non-dict
value raises AttributeError. -/
inductive PyError where
  | attributeError

def isHttpPost : Event → Bool
  | .httpPost _ _ => true
  | _ => false

def isLogException : Event → Bool
  | .logException _ => true
  | _ => false

/-- The bug_data dict built at the top of create_experiment_bug. The class
attribute BUGZILLA_TEMPLATE is outside the snapshot, so the formatted
description is abstracted into the template argument. -/
def bug_data (settings : BugzillaSettings) (template : BugzillaExperiment → String)
    (experiment : BugzillaExperiment) : List (String × String) :=
  [("product", "Shield"),
   ("component", "Shield Study"),
   ("version", "unspecified"),
   ("summary", "[Shield] Pref Flip Study: " ++ experiment.name),
   ("description", template experiment),
   ("assigned_to", experiment.ownerEmail),
   ("cc", settings.ccList)]

/-- response_data.get("id", None): a dict lookup on a JSON object; on any other
successfully parsed value the attribute access raises AttributeError. -/
def responseDataGetId : Json → Except PyError (Option Json)
  | .obj fields => .ok (fields.lookup "id")
  | _ => .error .attributeError

/-- Embedding of create_experiment_bug (bugzilla.py lines 8-32): build
bug_data, POST it once, parse the response; RequestException and
JSONDecodeError are caught and logged, leaving response_data as the initial
empty dict, so the final dict lookup of "id" yields None. Returns the list of
observable events together with the returned ticket id (or the escaping
exception). -/
def create_experiment_bug (settings : BugzillaSettings)
    (template : BugzillaExperiment → String) (experiment : BugzillaExperiment)
    (wire : WireOutcome) : List Event × Except PyError (Option Json) :=
  let data := bug_data settings template experiment
  match wire with
  | .requestException =>
      ([.httpPost settings.createUrl data,
        .logException "Error creating Bugzilla Ticket"], .ok none)
  | .jsonDecodeError =>
      ([.httpPost settings.createUrl data,
        .logException "Error parsing JSON Bugzilla response"], .ok none)
  | .parsed v =>
      ([.httpPost settings.createUrl data], responseDataGetId v)

/-- C1: when the outbound POST raises a RequestException or the response body
is malformed JSON, the exception is caught and logged, create_experiment_bug
returns None as the ticket id, and exactly one POST attempt is made. -/
theorem create_experiment_bug_failure_logged (settings : BugzillaSettings)
    (template : BugzillaExperiment → String) (experiment : BugzillaExperiment)
    (wire : WireOutcome)
    (h : wire = .requestException ∨ wire = .jsonDecodeError) :
    (create_experiment_bug settings template experiment wire).2 = .ok none ∧
    ((create_experiment_bug settings template experiment wire).1.countP isHttpPost = 1) ∧
    ((create_experiment_bug settings template experiment wire).1.countP isLogException = 1) := by
  rcases h with h | h <;> subst h <;>
    simp [create_experiment_bug, isHttpPost, isLogException, List.countP_cons]

theorem create_experiment_bug_failure_logged_witness :
    (create_experiment_bug ⟨"url", "cc"⟩ (fun _ => "desc") ⟨"exp", "o@x"⟩
        .requestException).2 = .ok none := by
  exact (create_experiment_bug_failure_logged ⟨"url", "cc"⟩ (fun _ => "desc")
    ⟨"exp", "o@x"⟩ .requestException (Or.inl rfl)).1

/-- C2: create_experiment_bug never raises when the HTTP request fails or when
parsing the response body fails; both failures end in a normal return. -/
theorem create_experiment_bug_no_raise_on_failure (settings : BugzillaSettings)
    (template : BugzillaExperiment → String) (experiment : BugzillaExperiment)
    (wire : WireOutcome)
    (h : wire = .requestException ∨ wire = .jsonDecodeError) :
    ∃ r, (create_experiment_bug settings template experiment wire).2 = .ok r := by
  rcases h with h | h <;> subst h <;> exact ⟨none, rfl⟩

theorem create_experiment_bug_no_raise_on_failure_witness :
    ∃ r, (create_experiment_bug ⟨"url", "cc"⟩ (fun _ => "desc") ⟨"exp", "o@x"⟩
        .jsonDecodeError).2 = .ok r := by
  exact create_experiment_bug_no_raise_on_failure ⟨"url", "cc"⟩ (fun _ => "desc")
    ⟨"exp", "o@x"⟩ .jsonDecodeError (Or.inr rfl)

/-- C3: when the POST succeeds and the response parses as a JSON object, the
returned ticket id is the object's "id" field, and None when the object has no
"id" field. -/
theorem create_experiment_bug_returns_id (settings : BugzillaSettings)
    (template : BugzillaExperiment → String) (experiment : BugzillaExperiment)
    (fields : List (String × Json)) :
    (create_experiment_bug settings template experiment (.parsed (.obj fields))).2 =
      .ok (fields.lookup "id") ∧
    (fields.lookup "id" = none →
      (create_experiment_bug settings template experiment (.parsed (.obj fields))).2 =
        .ok none) := by
  refine ⟨rfl, fun h => ?_⟩
  simp [create_experiment_bug, responseDataGetId, h]

theorem create_experiment_bug_returns_id_witness :
    (create_experiment_bug ⟨"url", "cc"⟩ (fun _ => "desc") ⟨"exp", "o@x"⟩
        (.parsed (.obj []))).2 = .ok none := by
  exact (create_experiment_bug_returns_id ⟨"url", "cc"⟩ (fun _ => "desc")
    ⟨"exp", "o@x"⟩ []).2 rfl

/-! ## Experiment statuses and the status-transition table -/

/-- The experiment lifecycle statuses. Modelled from the spec: status
transitions run draft, review, ship, accepted, complete; the Experiment model
itself is outside the snapshot. -/
inductive ExperimentStatus where
  | draft
  | review
  | ship
  | accepted
  | complete
deriving DecidableEq, Repr, Fintype

/-- Modelled from the spec: Experiment.STATUS_CHOICES in declaration order
(draft, review, ship, accepted, complete); the constants module is outside the
snapshot. -/
def STATUS_CHOICES : List ExperimentStatus :=
  [.draft, .review, .ship, .accepted, .complete]

/-- Modelled from the spec: Experiment.STATUS_TRANSITIONS, the fixed linear
mapping from each status to its legal next statuses (draft to review to ship to
accepted to complete); the constants module is outside the snapshot. -/
def STATUS_TRANSITIONS : ExperimentStatus → List ExperimentStatus
  | .draft => [.review]
  | .review => [.ship]
  | .ship => [.accepted]
  | .accepted => [.complete]
  | .complete => []

/-- Python's x or y on lists: the fallback when the first list is empty. -/
def pyListOr (l fallback : List ExperimentStatus) : List ExperimentStatus :=
  if l.isEmpty then fallback else l

/-- The candidate pool random.choice draws new_status from in
ExperimentChangeLogFactory (factories.py lines 273-277):
STATUS_TRANSITIONS of old_status, or the singleton old_status when that entry
is empty. -/
def newStatusCandidates (old : ExperimentStatus) : List ExperimentStatus :=
  pyListOr (STATUS_TRANSITIONS old) [old]

/-- C4: every change-log record produced by ExperimentChangeLogFactory has
new_status a legal successor of old_status: an element of
STATUS_TRANSITIONS of old_status, or equal to old_status when that entry is
empty. -/
theorem changelog_factory_new_status_legal (old ns : ExperimentStatus)
    (h : ns ∈ newStatusCandidates old) :
    ns ∈ STATUS_TRANSITIONS old ∨ (STATUS_TRANSITIONS old = [] ∧ ns = old) := by
  revert h
  cases old <;> simp [newStatusCandidates, pyListOr, STATUS_TRANSITIONS]

theorem changelog_factory_new_status_legal_witness :
    .review ∈ STATUS_TRANSITIONS .draft ∨
      (STATUS_TRANSITIONS .draft = [] ∧ ExperimentStatus.review = .draft) := by
  exact changelog_factory_new_status_legal .draft .review (by decide)

/-! ## The Experiment record used by the view-layer models -/

/-- The experiment fields the modelled views and filters read or write. The
Django model itself is outside the snapshot. -/
structure Experiment where
  slug : String := ""
  status : ExperimentStatus := .draft
  archived : Bool := false
  normandyId : Option Int := none
  normandySlug : Option String := none
  projectId : Nat := 0
  ownerId : Nat := 0
  firefoxVersion : String := ""
  firefoxChannel : String := ""
  reviewQaRequested : Bool := false
  reviewQa : Bool := false
deriving DecidableEq, Repr

/-- The experiment detail page URL for a slug (the experiments-detail route). -/
def experimentDetailUrl (slug : String) : String :=
  "/experiments/" ++ slug ++ "/"

/-- Modelled from the spec: the status-update view (views.py is outside the
snapshot). A POSTed status is persisted when it is a legal next status under
the transition table and ignored otherwise; either way the response redirects
to the experiment's detail page. -/
def statusUpdateView (e : Experiment) (requested : ExperimentStatus) :
    Experiment × String :=
  if requested ∈ STATUS_TRANSITIONS e.status then
    ({ e with status := requested }, experimentDetailUrl e.slug)
  else
    (e, experimentDetailUrl e.slug)

/-- C5: a POST to the status-update endpoint persists the requested status
exactly when it is legal under the transition table, leaves the status
unchanged otherwise, and redirects to the detail page in both cases. -/
theorem status_update_view_spec (e : Experiment) (requested : ExperimentStatus) :
    (requested ∈ STATUS_TRANSITIONS e.status →
      (statusUpdateView e requested).1.status = requested) ∧
    (requested ∉ STATUS_TRANSITIONS e.status →
      (statusUpdateView e requested).1.status = e.status) ∧
    (statusUpdateView e requested).2 = experimentDetailUrl e.slug := by
  unfold statusUpdateView
  by_cases h : requested ∈ STATUS_TRANSITIONS e.status <;>
    simp [h]

theorem status_update_view_spec_witness :
    (statusUpdateView { slug := "exp" } .review).1.status = .review ∧
    (statusUpdateView { slug := "exp" } .complete).1.status = .draft := by
  constructor
  · exact (status_update_view_spec { slug := "exp" } .review).1 (by decide)
  · exact (status_update_view_spec { slug := "exp" } .complete).2.1 (by decide)

/-- A decimal digit's value, None for any other character. -/
def charDigit (c : Char) : Option Nat :=
  if 48 ≤ c.toNat ∧ c.toNat ≤ 57 then some (c.toNat - 48) else none

/-- Parse a nonempty all-digit character list as a natural number. -/
def parseNatDigits (l : List Char) : Option Nat :=
  l.foldl
    (fun acc c =>
      match acc, charDigit c with
      | some a, some d => some (a * 10 + d)
      | _, _ => none)
    (if l.isEmpty then none else some 0)

/-- Modelled from the spec: the integer validation of the recipe-id form field
(an optional sign followed by digits); the forms module is outside the
snapshot. -/
def parseRecipeId (s : String) : Option Int :=
  match s.data with
  | '-' :: rest => (parseNatDigits rest).map (fun n => -(n : Int))
  | l => (parseNatDigits l).map (fun n => (n : Int))

/-- Modelled from the spec: the normandy-update view (views.py is outside the
snapshot), the delivery-service recipe ID acceptance endpoint. A POSTed recipe
id that validates as an integer is stored as normandy_id and the experiment
moves to Accepted with a redirect to the detail page; anything else leaves the
experiment unchanged and redirects to the detail page with the submitted id as
a normandy_id query parameter. -/
def normandyUpdateView (e : Experiment) (posted : String) : Experiment × String :=
  match parseRecipeId posted with
  | some k =>
      ({ e with normandyId := some k, status := .accepted },
       experimentDetailUrl e.slug)
  | none =>
      (e, experimentDetailUrl e.slug ++ "?normandy_id=" ++ posted)

/-- C6: for an experiment in Ship status, posting a valid integer recipe id to
the normandy-update endpoint stores it as normandy_id and moves the status to
Accepted; posting a non-integer id leaves the experiment unchanged and
redirects to the detail page with the submitted id as a normandy_id query
parameter. -/
theorem normandy_update_view_spec (e : Experiment) (posted : String)
    (hship : e.status = .ship) :
    (∀ k, parseRecipeId posted = some k →
      (normandyUpdateView e posted).1.normandyId = some k ∧
      (normandyUpdateView e posted).1.status = .accepted) ∧
    (parseRecipeId posted = none →
      (normandyUpdateView e posted).1 = e ∧
      (normandyUpdateView e posted).2 =
        experimentDetailUrl e.slug ++ "?normandy_id=" ++ posted) := by
  constructor
  · intro k hk
    simp [normandyUpdateView, hk]
  · intro hk
    simp [normandyUpdateView, hk]

theorem normandy_update_view_spec_witness :
    ((normandyUpdateView { slug := "exp", status := .ship } "123").1.normandyId =
        some 123 ∧
      (normandyUpdateView { slug := "exp", status := .ship } "123").1.status =
        .accepted) ∧
    (normandyUpdateView { slug := "exp", status := .ship } "abc").1 =
      { slug := "exp", status := .ship } := by
  constructor
  · exact (normandy_update_view_spec { slug := "exp", status := .ship } "123"
      rfl).1 123 (by decide)
  · exact ((normandy_update_view_spec { slug := "exp", status := .ship } "abc"
      rfl).2 (by decide)).1

/-! ## The experiment filterset -/

/-- The filter parameters of the experiment list filterset that this
development models; absent parameters apply no filter. -/
structure FilterParams where
  archived : Bool := false
  project : Option Nat := none
  owner : Option Nat := none
  status : Option ExperimentStatus := none
  firefoxVersion : Option String := none
  firefoxChannel : Option String := none
  inQa : Bool := false
deriving Repr

/-- Apply an optional equality filter on a field. -/
def optFilter {α : Type} [DecidableEq α] (get : Experiment → α)
    (param : Option α) (qs : List Experiment) : List Experiment :=
  match param with
  | none => qs
  | some v => qs.filter (fun e => get e = v)

/-- The default archived handling: archived experiments are excluded unless
the archived parameter is set. -/
def archivedFilter (b : Bool) (qs : List Experiment) : List Experiment :=
  if b then qs else qs.filter (fun e => !e.archived)

/-- The in_qa filter: keep experiments with QA review requested but not yet
done, when the parameter is on. -/
def inQaFilter (b : Bool) (qs : List Experiment) : List Experiment :=
  if b then qs.filter (fun e => e.reviewQaRequested && !e.reviewQa) else qs

/-- Modelled from the spec: ExperimentFilterset (views.py is outside the
snapshot), the multi-field filter over the experiment queryset. Archived
experiments are excluded unless the archived parameter is set; every other
present parameter narrows by field equality, and in_qa keeps experiments with
QA review requested but not yet done. -/
def filterset_qs (p : FilterParams) (qs : List Experiment) : List Experiment :=
  inQaFilter p.inQa
    (optFilter Experiment.firefoxChannel p.firefoxChannel
      (optFilter Experiment.firefoxVersion p.firefoxVersion
        (optFilter Experiment.status p.status
          (optFilter Experiment.ownerId p.owner
            (optFilter Experiment.projectId p.project
              (archivedFilter p.archived qs))))))

theorem optFilter_sublist {α : Type} [DecidableEq α] (get : Experiment → α)
    (param : Option α) (qs : List Experiment) :
    (optFilter get param qs).Sublist qs := by
  cases param with
  | none => exact List.Sublist.refl qs
  | some v => exact List.filter_sublist qs

theorem archivedFilter_sublist (b : Bool) (qs : List Experiment) :
    (archivedFilter b qs).Sublist qs := by
  cases b <;> simp [archivedFilter, List.filter_sublist]

theorem inQaFilter_sublist (b : Bool) (qs : List Experiment) :
    (inQaFilter b qs).Sublist qs := by
  cases b <;> simp [inQaFilter, List.filter_sublist]

theorem filterset_qs_sublist (p : FilterParams) (qs : List Experiment) :
    (filterset_qs p qs).Sublist qs :=
  (inQaFilter_sublist _ _).trans <|
    (optFilter_sublist _ _ _).trans <|
      (optFilter_sublist _ _ _).trans <|
        (optFilter_sublist _ _ _).trans <|
          (optFilter_sublist _ _ _).trans <|
            (optFilter_sublist _ _ _).trans (archivedFilter_sublist _ _)

/-- C7: the filterset only narrows the input queryset; with no parameters the
result is exactly the non-archived experiments, and with archived set to true
the result is the whole input queryset. -/
theorem filterset_spec :
    (∀ (p : FilterParams) (qs : List Experiment),
      ∀ e ∈ filterset_qs p qs, e ∈ qs) ∧
    (∀ qs : List Experiment,
      filterset_qs {} qs = qs.filter (fun e => !e.archived)) ∧
    (∀ qs : List Experiment, filterset_qs { archived := true } qs = qs) := by
  refine ⟨fun p qs e he => (filterset_qs_sublist p qs).subset he, fun qs => rfl,
    fun qs => rfl⟩

theorem filterset_spec_witness :
    ({ } : Experiment) ∈ [({ } : Experiment)] := by
  exact filterset_spec.1 {} [{ }] { } (by decide)

/-! ## The form mixin's redirect-URL selection -/

/-- Modelled from the spec: ExperimentFormMixin.get_success_url (views.py is
outside the snapshot), the redirect-URL selector keyed off the action POST
parameter. The url reversal function is abstracted as the reverse argument;
with action equal to continue the next view's name is reversed with the
object's slug, otherwise the experiments-detail route is. -/
def get_success_url (reverse : String → String → String)
    (nextViewName slug : String) (action : Option String) : String :=
  if action = some "continue" then reverse nextViewName slug
  else reverse "experiments-detail" slug

/-- C8: get_success_url returns the next view's URL reversed with the object's
slug when the action POST parameter equals continue, and the experiment detail
URL reversed with the slug otherwise. -/
theorem get_success_url_spec (reverse : String → String → String)
    (nextViewName slug : String) :
    get_success_url reverse nextViewName slug (some "continue") =
      reverse nextViewName slug ∧
    (∀ action : Option String, action ≠ some "continue" →
      get_success_url reverse nextViewName slug action =
        reverse "experiments-detail" slug) := by
  refine ⟨rfl, fun action h => ?_⟩
  simp [get_success_url, h]

theorem get_success_url_spec_witness :
    get_success_url (fun name slug => name ++ "/" ++ slug) "next-test-view"
        "slug" (some "continue") = "next-test-view/slug" ∧
    get_success_url (fun name slug => name ++ "/" ++ slug) "next-test-view"
        "slug" none = "experiments-detail/slug" := by
  exact ⟨(get_success_url_spec (fun name slug => name ++ "/" ++ slug)
      "next-test-view" "slug").1,
    (get_success_url_spec (fun name slug => name ++ "/" ++ slug)
      "next-test-view" "slug").2 none (by simp)⟩

/-! ## ExperimentFactory.create_with_status -/

/-- One row of the ExperimentChangeLog table as created by the factory. -/
structure ChangeLogEntry where
  oldStatus : Option ExperimentStatus
  newStatus : ExperimentStatus
deriving DecidableEq, Repr

/-- The loop body of ExperimentFactory.create_with_status (factories.py lines
167-188): for each status in the choice list, set the experiment's status,
record a change-log entry from the previous status, set the normandy slug when
passing Ship, and stop once the target status has been processed. Returns the
final experiment and the change-log entries in creation order. -/
def create_with_status_loop (gen : Experiment → String)
    (target : ExperimentStatus) (e : Experiment)
    (old : Option ExperimentStatus) :
    List ExperimentStatus → Experiment × List ChangeLogEntry
  | [] => (e, [])
  | c :: rest =>
    let e1 := { e with status := c }
    let e2 := if c = .ship then { e1 with normandySlug := some (gen e1) } else e1
    if c = target then (e2, [⟨old, c⟩])
    else
      let r := create_with_status_loop gen target e2 (some c) rest
      (r.1, ⟨old, c⟩ :: r.2)

/-- Embedding of ExperimentFactory.create_with_status: run the loop over
STATUS_CHOICES starting from a freshly created experiment with no previous
status. -/
def create_with_status (gen : Experiment → String) (target : ExperimentStatus)
    (e : Experiment) : Experiment × List ChangeLogEntry :=
  create_with_status_loop gen target e none STATUS_CHOICES

/-- The statuses from the first choice up to and including the target, in
declaration order. -/
def statusesUpTo (target : ExperimentStatus) : List ExperimentStatus :=
  STATUS_CHOICES.takeWhile (fun s => s ≠ target) ++ [target]

/-- The change-log entries create_with_status is expected to produce: one per
status up to the target, each pairing the previous status (None for the first)
with the current one. -/
def expectedChanges (target : ExperimentStatus) : List ChangeLogEntry :=
  ((none :: (statusesUpTo target).map some).zip (statusesUpTo target)).map
    (fun p => ⟨p.1, p.2⟩)

/-- C10: for every target status in STATUS_CHOICES, create_with_status returns
an experiment whose status is the target, having created one change-log entry
per status from the first choice up to the target in declaration order, each
entry's old_status being the previous status (None for the first) and its
new_status the current one. -/
theorem create_with_status_spec (gen : Experiment → String) (e : Experiment)
    (target : ExperimentStatus) (htarget : target ∈ STATUS_CHOICES) :
    (create_with_status gen target e).1.status = target ∧
    (create_with_status gen target e).2 = expectedChanges target := by
  clear htarget
  cases target <;>
    simp [create_with_status, create_with_status_loop, STATUS_CHOICES,
      expectedChanges, statusesUpTo]

theorem create_with_status_spec_witness :
    (create_with_status (fun _ => "slug") .ship { }).1.status = .ship ∧
    (create_with_status (fun _ => "slug") .ship { }).2 =
      expectedChanges .ship := by
  exact create_with_status_spec (fun _ => "slug") { } .ship (by decide)

/-! ## letter_code_sequence -/

/-- The little-endian base-26 digit list built by the loop of
letter_code_sequence (factories.py lines 298-303): while n is positive, emit
n mod 26 and continue with n div 26. -/
def letterDigits : Nat → List Nat
  | 0 => []
  | n + 1 => ((n + 1) % 26) :: letterDigits ((n + 1) / 26)
decreasing_by exact Nat.div_lt_self (Nat.succ_pos n) (by norm_num)

/-- The character appended for one digit: chr(letter + ord(a)). -/
def letterChar (d : Nat) : Char := Char.ofNat (97 + d)

/-- Embedding of letter_code_sequence (factories.py lines 295-304): increment
the input once, then build the string of base-26 digit characters, least
significant first. -/
def letter_code_sequence (n : Nat) : String :=
  ⟨(letterDigits (n + 1)).map letterChar⟩

theorem letterDigits_lt (m : Nat) : ∀ d ∈ letterDigits m, d < 26 := by
  induction m using Nat.strong_induction_on with
  | _ m ih =>
    match m with
    | 0 => simp [letterDigits]
    | n + 1 =>
      rw [letterDigits]
      intro d hd
      rcases List.mem_cons.mp hd with h | h
      · subst h
        exact Nat.mod_lt _ (by norm_num)
      · exact ih ((n + 1) / 26) (Nat.div_lt_self (Nat.succ_pos n) (by norm_num)) d h

theorem letterDigits_injective (m₁ : Nat) :
    ∀ m₂, letterDigits m₁ = letterDigits m₂ → m₁ = m₂ := by
  induction m₁ using Nat.strong_induction_on with
  | _ m₁ ih =>
    intro m₂ h
    match m₁, m₂ with
    | 0, 0 => rfl
    | 0, n + 1 => simp [letterDigits] at h
    | n + 1, 0 => simp [letterDigits] at h
    | n₁ + 1, n₂ + 1 =>
      rw [letterDigits, letterDigits] at h
      obtain ⟨hmod, htail⟩ := List.cons.injEq .. ▸ h
      have hdiv : (n₁ + 1) / 26 = (n₂ + 1) / 26 :=
        ih ((n₁ + 1) / 26) (Nat.div_lt_self (Nat.succ_pos n₁) (by norm_num))
          ((n₂ + 1) / 26) htail
      omega

theorem letterChar_inj_aux :
    ∀ d₁ : Nat, d₁ < 26 → ∀ d₂ : Nat, d₂ < 26 →
      letterChar d₁ = letterChar d₂ → d₁ = d₂ := by
  decide

theorem letterChar_inj {d₁ d₂ : Nat} (h₁ : d₁ < 26) (h₂ : d₂ < 26)
    (h : letterChar d₁ = letterChar d₂) : d₁ = d₂ :=
  letterChar_inj_aux d₁ h₁ d₂ h₂ h

theorem map_letterChar_inj (l₁ : List Nat) :
    ∀ l₂ : List Nat, (∀ d ∈ l₁, d < 26) → (∀ d ∈ l₂, d < 26) →
      l₁.map letterChar = l₂.map letterChar → l₁ = l₂ := by
  induction l₁ with
  | nil =>
    intro l₂ _ _ h
    cases l₂ with
    | nil => rfl
    | cons b t => simp at h
  | cons a t₁ ih =>
    intro l₂ h₁ h₂ h
    cases l₂ with
    | nil => simp at h
    | cons b t₂ =>
      simp only [List.map_cons, List.cons.injEq] at h
      have ha : a = b :=
        letterChar_inj (h₁ a (List.mem_cons_self a t₁))
          (h₂ b (List.mem_cons_self b t₂)) h.1
      have ht : t₁ = t₂ :=
        ih t₂ (fun d hd => h₁ d (List.mem_cons_of_mem a hd))
          (fun d hd => h₂ d (List.mem_cons_of_mem b hd)) h.2
      rw [ha, ht]

theorem letterChar_range_aux :
    ∀ d : Nat, d < 26 → 97 ≤ (letterChar d).toNat ∧ (letterChar d).toNat ≤ 122 := by
  decide

theorem letterChar_range {d : Nat} (h : d < 26) :
    97 ≤ (letterChar d).toNat ∧ (letterChar d).toNat ≤ 122 :=
  letterChar_range_aux d h

/-- C9: letter_code_sequence maps every natural number to a non-empty string
of lowercase ASCII letters, and distinct inputs produce distinct strings. -/
theorem letter_code_sequence_spec :
    (∀ n : Nat, letter_code_sequence n ≠ "" ∧
      ∀ c ∈ (letter_code_sequence n).data, 97 ≤ c.toNat ∧ c.toNat ≤ 122) ∧
    ∀ m n : Nat, letter_code_sequence m = letter_code_sequence n → m = n := by
  constructor
  · intro n
    constructor
    · intro h
      have hdata : (letterDigits (n + 1)).map letterChar = [] := by
        have := congrArg String.data h
        simpa [letter_code_sequence] using this
      rw [letterDigits] at hdata
      simp at hdata
    · intro c hc
      simp only [letter_code_sequence, List.mem_map] at hc
      obtain ⟨d, hd, rfl⟩ := hc
      exact letterChar_range (letterDigits_lt (n + 1) d hd)
  · intro m n h
    have hdata : (letterDigits (m + 1)).map letterChar =
        (letterDigits (n + 1)).map letterChar := congrArg String.data h
    have hdig : letterDigits (m + 1) = letterDigits (n + 1) :=
      map_letterChar_inj _ _ (letterDigits_lt (m + 1)) (letterDigits_lt (n + 1))
        hdata
    have := letterDigits_injective (m + 1) (n + 1) hdig
    omega

theorem letter_code_sequence_spec_witness :
    letter_code_sequence 0 ≠ "" ∧ (27 : Nat) = 27 := by
  exact ⟨(letter_code_sequence_spec.1 0).1,
    letter_code_sequence_spec.2 27 27 rfl⟩

end Experimenter
